import Mathlib

/-!
Verification development for the calendar-chatbot repository.

This file shallowly embeds the natural-language-handling core of the
repository (src/backend/calendar_utils.py and src/backend/simple_llm_agent.py)
and settles the frozen claims about it.

Modelling conventions:
* Dates are proleptic-Gregorian ordinals (`Nat`, Python `date.toordinal`);
  ordinal 1 is 0001-01-01, a Monday, so Python's `weekday()` (Monday = 0) is
  `(ord + 6) % 7`.
* Clock times are minutes since midnight (the parser always constructs times
  with zero seconds; the reference instant's time-of-day is modelled at the
  same granularity).
* The wall clock `datetime.now()` read inside the source functions is
  injected as a `Ref` (reference instant) argument; `Ref.year` carries the
  `now.year` component that the month/day date formats read.
* Python exceptions are `Except Unit`; a Python `try/except` is a `match`
  whose error arm is the handler.  External effectful collaborators (the
  Language Inference Service responses, `dateutil`-backed
  `parse_combined_datetime`, the Google-calendar availability and event
  creation results) are universally quantified oracle inputs.
* Python string operations are re-implemented over `String.data` character
  lists, mirroring CPython semantics (`strip`, `lower`, `in`, `split`,
  `find`, slicing), and `strptime` format matching follows CPython's
  `_strptime` regexes, ordered alternation included.
-/

/-- Characters Python's `str.strip` / `\s` treat as whitespace. -/
def pyIsSpace (c : Char) : Bool :=
  c = ' ' || c = '\t' || c = '\n' || c = '\r' || c = '\x0b' || c = '\x0c'

/-- Python `str.strip()`: drop leading and trailing whitespace. -/
def pyStrip (s : String) : String :=
  ⟨((s.data.dropWhile pyIsSpace).reverse.dropWhile pyIsSpace).reverse⟩

/-- ASCII lower-casing of one character, as Python `str.lower` acts on the
ASCII inputs this code base handles. -/
def pyCharLower (c : Char) : Char :=
  if 'A' ≤ c && c ≤ 'Z' then Char.ofNat (c.toNat + 32) else c

/-- Python `str.lower()` (ASCII range). -/
def pyLower (s : String) : String :=
  ⟨s.data.map pyCharLower⟩

/-- Python `needle in hay` substring test. -/
def containsStr (hay needle : String) : Bool :=
  hay.data.tails.any (fun t => needle.data.isPrefixOf t)

/-- Python `s.startswith(p)`. -/
def strStartsWith (s p : String) : Bool :=
  p.data.isPrefixOf s.data

/-- Python `s[n:]` (character slicing). -/
def strDropChars (s : String) (n : Nat) : String :=
  ⟨s.data.drop n⟩

/-- The reference instant injected for `datetime.now()`: the day ordinal,
the time of day in minutes, and the calendar year of that day. -/
structure Ref where
  ord : Nat
  timeMin : Nat
  year : Nat
  deriving DecidableEq, Repr

/-- An absolute instant: day ordinal and minutes past midnight. -/
structure Instant where
  ord : Nat
  min : Nat
  deriving DecidableEq, Repr

/-! ### `strptime` field regexes (CPython `_strptime`), as ordered-alternation
character-list parsers.  Each returns the parsed value and the rest of the
input, or `none` when the regex alternation fails. -/

/-- `%I` and `%m`: regex `1[0-2]|0[1-9]|[1-9]`. -/
def parse_I : List Char → Option (Nat × List Char)
  | [] => none
  | c :: r =>
    if c = '1' then
      match r with
      | d :: r2 => if '0' ≤ d && d ≤ '2' then some (10 + (d.toNat - 48), r2) else some (1, r)
      | [] => some (1, [])
    else if c = '0' then
      match r with
      | d :: r2 => if '1' ≤ d && d ≤ '9' then some (d.toNat - 48, r2) else none
      | [] => none
    else if '2' ≤ c && c ≤ '9' then some (c.toNat - 48, r)
    else none

/-- `%H`: regex `2[0-3]|[0-1]\d|\d`. -/
def parse_H : List Char → Option (Nat × List Char)
  | [] => none
  | c :: r =>
    if c = '2' then
      match r with
      | d :: r2 => if '0' ≤ d && d ≤ '3' then some (20 + (d.toNat - 48), r2) else some (2, r)
      | [] => some (2, [])
    else if c = '0' || c = '1' then
      match r with
      | d :: r2 => if d.isDigit then some ((c.toNat - 48) * 10 + (d.toNat - 48), r2) else some (c.toNat - 48, r)
      | [] => some (c.toNat - 48, [])
    else if c.isDigit then some (c.toNat - 48, r)
    else none

/-- `%M`: regex `[0-5]\d|\d`. -/
def parse_M : List Char → Option (Nat × List Char)
  | [] => none
  | c :: r =>
    if '0' ≤ c && c ≤ '5' then
      match r with
      | d :: r2 => if d.isDigit then some ((c.toNat - 48) * 10 + (d.toNat - 48), r2) else some (c.toNat - 48, r)
      | [] => some (c.toNat - 48, [])
    else if c.isDigit then some (c.toNat - 48, r)
    else none

/-- `%p`: `am` or `pm`, case-insensitively; returns whether it is pm. -/
def parse_p : List Char → Option (Bool × List Char)
  | a :: m :: r =>
    if (a = 'a' || a = 'A') && (m = 'm' || m = 'M') then some (false, r)
    else if (a = 'p' || a = 'P') && (m = 'm' || m = 'M') then some (true, r)
    else none
  | _ => none

/-- `%d`: regex `3[01]|[12]\d|0[1-9]|[1-9]`. -/
def parse_d : List Char → Option (Nat × List Char)
  | [] => none
  | c :: r =>
    if c = '3' then
      match r with
      | d :: r2 => if d = '0' || d = '1' then some (30 + (d.toNat - 48), r2) else some (3, r)
      | [] => some (3, [])
    else if c = '1' || c = '2' then
      match r with
      | d :: r2 => if d.isDigit then some ((c.toNat - 48) * 10 + (d.toNat - 48), r2) else some (c.toNat - 48, r)
      | [] => some (c.toNat - 48, [])
    else if c = '0' then
      match r with
      | d :: r2 => if '1' ≤ d && d ≤ '9' then some (d.toNat - 48, r2) else none
      | [] => none
    else if '4' ≤ c && c ≤ '9' then some (c.toNat - 48, r)
    else none

/-- `%Y`: exactly four digits. -/
def parse_Y : List Char → Option (Nat × List Char)
  | a :: b :: c :: d :: r =>
    if a.isDigit && b.isDigit && c.isDigit && d.isDigit then
      some ((a.toNat - 48) * 1000 + (b.toNat - 48) * 100 + (c.toNat - 48) * 10 + (d.toNat - 48), r)
    else none
  | _ => none

/-- Standard 12-hour to 24-hour conversion CPython applies for `%I` + `%p`. -/
def hour24 (h : Nat) (pm : Bool) : Nat :=
  if pm then (if h = 12 then 12 else h + 12) else (if h = 12 then 0 else h)

/-- `strptime(s, "%I:%M %p")` producing minutes past midnight (format
whitespace matches one or more input whitespace; the whole input must be
consumed). -/
def strptime_IMp (cs : List Char) : Option Nat :=
  match parse_I cs with
  | none => none
  | some (h, r1) =>
    match r1 with
    | ':' :: r2 =>
      match parse_M r2 with
      | none => none
      | some (m, r3) =>
        match r3 with
        | c :: r4 =>
          if pyIsSpace c then
            match parse_p (r4.dropWhile pyIsSpace) with
            | some (pm, r5) => if r5 = [] then some (hour24 h pm * 60 + m) else none
            | none => none
          else none
        | [] => none
    | _ => none

/-- `strptime(s, "%H:%M")` producing minutes past midnight. -/
def strptime_HM (cs : List Char) : Option Nat :=
  match parse_H cs with
  | none => none
  | some (h, r1) =>
    match r1 with
    | ':' :: r2 =>
      match parse_M r2 with
      | some (m, r3) => if r3 = [] then some (h * 60 + m) else none
      | none => none
    | _ => none

/-- First match of `re.search(r'(\d{1,2})', s)`: leftmost run of one or two
digits, as a number. -/
def findDigits : List Char → Option Nat
  | [] => none
  | c :: r =>
    if c.isDigit then
      match r with
      | d :: _ => if d.isDigit then some ((c.toNat - 48) * 10 + (d.toNat - 48)) else some (c.toNat - 48)
      | [] => some (c.toNat - 48)
    else findDigits r

/-- The loose time fallback of `parse_date_time` (calendar_utils.py lines
246-259): extract the first 1-2 digit number, apply the `am`/`pm` substring
adjustment, build `time(hour, 0)`.  `none` when no digits are found or the
adjusted hour makes `time()` raise (both fall back to the reference
time-of-day in the caller). -/
def looseTime (s : String) : Option Nat :=
  match findDigits s.data with
  | none => none
  | some h =>
    let h2 :=
      if containsStr s "pm" && h ≠ 12 then h + 12
      else if containsStr s "am" && h = 12 then 0
      else h
    if h2 ≤ 23 then some (h2 * 60) else none

/-- The time-format cascade of `parse_date_time` (calendar_utils.py lines
226-259) applied to the stripped, lower-cased time phrase: the format list
`["%I:%M %p", "%I %p", "%H:%M", "%H"]`, where the `"%I %p"` and `"%H"`
entries each parse `s + ":00"` with `"%H:%M"`, then the loose fallback.
`none` means the code reached `target_time = now.time()`. -/
def timeCore (s : String) : Option Nat :=
  match strptime_IMp s.data with
  | some v => some v
  | none =>
    match strptime_HM (s.data ++ [':', '0', '0']) with
    | some v => some v
    | none =>
      match strptime_HM s.data with
      | some v => some v
      | none =>
        match strptime_HM (s.data ++ [':', '0', '0']) with
        | some v => some v
        | none => looseTime s

/-- The time-resolution step of `parse_date_time`: `if time_str:` guards on
Python truthiness (absent or empty phrase means the reference time-of-day),
and every internal failure defaults to the reference time-of-day. -/
def timeStep (t : Option String) (R : Ref) : Nat :=
  match t with
  | none => R.timeMin
  | some s =>
    if s = "" then R.timeMin
    else (timeCore (pyLower (pyStrip s))).getD R.timeMin

/-! ### Calendar arithmetic (Python `datetime.date.toordinal`). -/

/-- Gregorian leap year. -/
def isLeap (y : Nat) : Bool :=
  (y % 4 = 0 && y % 100 ≠ 0) || y % 400 = 0

/-- Days in a month. -/
def daysInMonth (y m : Nat) : Nat :=
  if m = 2 then (if isLeap y then 29 else 28)
  else if m = 4 || m = 6 || m = 9 || m = 11 then 30
  else 31

/-- Days in the year `y` before month `m`. -/
def daysBeforeMonth (y m : Nat) : Nat :=
  (List.range (m - 1)).foldl (fun a i => a + daysInMonth y (i + 1)) 0

/-- Python `date(y, m, d).toordinal()` (proleptic Gregorian, ordinal 1 is
0001-01-01). -/
def toOrdinal (y m d : Nat) : Nat :=
  365 * (y - 1) + (y - 1) / 4 - (y - 1) / 100 + (y - 1) / 400 + daysBeforeMonth y m + d

/-- `datetime(y, m, d)` construction: `strptime` raises `ValueError` for an
out-of-range day or year, which the per-format `except` turns into trying the
next format. -/
def mkDateOrd (y m d : Nat) : Option Nat :=
  if 1 ≤ y && 1 ≤ d && d ≤ daysInMonth y m then some (toOrdinal y m d) else none

/-- `strptime(s, "%Y-%m-%d").date()` as an ordinal. -/
def fmtYMD (cs : List Char) : Option Nat :=
  match parse_Y cs with
  | some (y, '-' :: r1) =>
    match parse_I r1 with
    | some (m, '-' :: r2) =>
      match parse_d r2 with
      | some (d, []) => mkDateOrd y m d
      | _ => none
    | _ => none
  | _ => none

/-- `strptime(s, "%m/%d/%Y").date()` as an ordinal. -/
def fmtMDY (cs : List Char) : Option Nat :=
  match parse_I cs with
  | some (m, '/' :: r1) =>
    match parse_d r1 with
    | some (d, '/' :: r2) =>
      match parse_Y r2 with
      | some (y, []) => mkDateOrd y m d
      | _ => none
    | _ => none
  | _ => none

/-- `strptime(s, "%d/%m/%Y").date()` as an ordinal. -/
def fmtDMY (cs : List Char) : Option Nat :=
  match parse_d cs with
  | some (d, '/' :: r1) =>
    match parse_I r1 with
    | some (m, '/' :: r2) =>
      match parse_Y r2 with
      | some (y, []) => mkDateOrd y m d
      | _ => none
    | _ => none
  | _ => none

/-- Full month names (`%B`), lower-cased as the already lower-cased phrase is
matched case-insensitively. -/
def monthFull : List (String × Nat) :=
  [("january", 1), ("february", 2), ("march", 3), ("april", 4), ("may", 5), ("june", 6),
   ("july", 7), ("august", 8), ("september", 9), ("october", 10), ("november", 11), ("december", 12)]

/-- Abbreviated month names (`%b`). -/
def monthAbbr : List (String × Nat) :=
  [("jan", 1), ("feb", 2), ("mar", 3), ("apr", 4), ("may", 5), ("jun", 6),
   ("jul", 7), ("aug", 8), ("sep", 9), ("oct", 10), ("nov", 11), ("dec", 12)]

/-- Match one month-name alternative at the head of the input. -/
def matchMonth (names : List (String × Nat)) (cs : List Char) : Option (Nat × List Char) :=
  names.findSome? fun p =>
    if p.1.data.isPrefixOf cs then some (p.2, cs.drop p.1.data.length) else none

/-- `strptime(f"{s} {year}", "%B %d %Y")` (or `%b`): month name, whitespace,
day, whitespace, four-digit year, whole input consumed. -/
def fmtMonthDayYear (names : List (String × Nat)) (cs : List Char) (year : Nat) : Option Nat :=
  let full := cs ++ (' ' :: (toString year).data)
  match matchMonth names full with
  | none => none
  | some (m, r1) =>
    match r1 with
    | c :: r2 =>
      if pyIsSpace c then
        match parse_d (r2.dropWhile pyIsSpace) with
        | some (d, c2 :: r3) =>
          if pyIsSpace c2 then
            match parse_Y (r3.dropWhile pyIsSpace) with
            | some (y, []) => mkDateOrd y m d
            | _ => none
          else none
        | _ => none
      else none
    | [] => none

/-- The `"%B %d"` / `"%b %d"` branch (calendar_utils.py lines 205-212): parse
with the current year appended; if the date already passed the reference
date, re-parse with next year (a failure there fails the whole format). -/
def fmtMonthDayRoll (names : List (String × Nat)) (cs : List Char) (R : Ref) : Option Nat :=
  match fmtMonthDayYear names cs R.year with
  | none => none
  | some o => if o < R.ord then fmtMonthDayYear names cs (R.year + 1) else some o

/-- The explicit-date format loop (calendar_utils.py lines 200-223): try the
five formats in order; when all fail the raised `ValueError` is caught by the
inner `except` and the reference date is used. -/
def explicitDateOrDefault (cs : List Char) (R : Ref) : Nat :=
  match fmtYMD cs with
  | some o => o
  | none =>
    match fmtMDY cs with
    | some o => o
    | none =>
      match fmtDMY cs with
      | some o => o
      | none =>
        match fmtMonthDayRoll monthFull cs R with
        | some o => o
        | none =>
          match fmtMonthDayRoll monthAbbr cs R with
          | some o => o
          | none => R.ord

/-- The weekday table of `parse_date_time` (Python `weekday()` numbering,
Monday = 0). -/
def day_map : List (String × Nat) :=
  [("monday", 0), ("tuesday", 1), ("wednesday", 2), ("thursday", 3),
   ("friday", 4), ("saturday", 5), ("sunday", 6)]

/-- Look a weekday name up in `day_map`. -/
def dayIdx (s : String) : Option Nat :=
  (day_map.find? (fun p => p.1 == s)).map (·.2)

/-- The `next <weekday>` arithmetic (calendar_utils.py lines 190-196):
`days_ahead = target - now.weekday()`, plus 7 when that is not positive. -/
def nextWeekdayOrd (target ordinal : Nat) : Nat :=
  let current := (ordinal + 6) % 7
  let days_ahead : Int := (target : Int) - (current : Int)
  let days_ahead := if days_ahead ≤ 0 then days_ahead + 7 else days_ahead
  ordinal + days_ahead.toNat

/-- The date-resolution step of `parse_date_time` (calendar_utils.py lines
167-223).  An `.error` is a `ValueError` that escapes to the outer handler:
this happens only for an empty phrase or an unknown `next <day>` name; an
unmatched explicit date defaults to the reference date inside the inner
handler. -/
def dateStepBody (date_str : String) (R : Ref) : Except Unit Nat :=
  if date_str = "" then .error ()
  else
    let ds := pyLower (pyStrip date_str)
    if ds = "today" then .ok R.ord
    else if ds = "tomorrow" then .ok (R.ord + 1)
    else if ds = "next week" then .ok (R.ord + 7)
    else if strStartsWith ds "next " then
      match dayIdx (strDropChars ds 5) with
      | some target => .ok (nextWeekdayOrd target R.ord)
      | none => .error ()
    else .ok (explicitDateOrDefault ds.data R)

/-- `CalendarManager.parse_date_time` (calendar_utils.py lines 164-274): the
date step, the time step, `datetime.combine`; the outer `except Exception`
(lines 271-274) turns any escaped error into the current instant, so the
function as observed by callers always returns `.ok`. -/
def parse_date_time (d : String) (t : Option String) (R : Ref) : Except Unit Instant :=
  match dateStepBody d R with
  | .error _ => .ok ⟨R.ord, R.timeMin⟩
  | .ok o => .ok ⟨o, timeStep t R⟩

/-! ### Slot extraction (`SimpleLLMAgent._extract_booking_info`,
simple_llm_agent.py lines 88-191). -/

/-- The `{date, time, title}` slot set; Python `None` is `none`, a Python
string (possibly empty, hence falsy) is `some`. -/
structure SlotInfo where
  date : Option String
  time : Option String
  title : Option String
  deriving DecidableEq, Repr

/-- Python truthiness test `not x` on an optional string: true for `None`
and for the empty string. -/
def pyFalsyOpt : Option String → Bool
  | none => true
  | some s => s = ""

/-- Python `line.split(':', 1)[1]`: everything after the first colon (only
invoked on lines that contain one). -/
def afterFirstColon (s : String) : String :=
  ⟨(s.data.dropWhile (fun c => c ≠ ':')).drop 1⟩

/-- Python `text.split('\n')` (over characters). -/
def splitNewlines (cs : List Char) : List (List Char) :=
  match cs with
  | [] => [[]]
  | c :: r =>
    match splitNewlines r with
    | [] => [[]]
    | l :: ls => if c = '\n' then [] :: l :: ls else (c :: l) :: ls

/-- Python `s.find(sub)` for a contained substring: index of the first
occurrence. -/
def firstIdxOfSub (hay needle : List Char) : Nat :=
  match hay with
  | [] => 0
  | _ :: r => if needle.isPrefixOf hay then 0 else firstIdxOfSub r needle + 1

/-- Python `s.split()[0]` of a non-empty stripped string: the first
whitespace-delimited token. -/
def firstWord (s : String) : String :=
  ⟨s.data.takeWhile (fun c => ¬ pyIsSpace c)⟩

/-- One match attempt of the time regex
`(\d{1,2}(?::\d{2})?\s*(?:am|pm)?)` at the current position:
one or two digits (greedy), an optional `:` with exactly two digits, greedy
`\s*`, an optional `am`/`pm`.  Returns the matched text. -/
def timeMatchHere (cs : List Char) : Option (List Char) :=
  match cs with
  | [] => none
  | c :: rest =>
    if c.isDigit then
      let (ds, r1) :=
        match rest with
        | d :: r => if d.isDigit then ([c, d], r) else ([c], rest)
        | [] => ([c], [])
      let (co, r2) :=
        match r1 with
        | ':' :: a :: b :: r => if a.isDigit && b.isDigit then ([':', a, b], r) else (([] : List Char), r1)
        | _ => (([] : List Char), r1)
      let sp := r2.takeWhile pyIsSpace
      let r3 := r2.drop sp.length
      let mer :=
        match r3 with
        | a :: m :: _ => if (a = 'a' || a = 'p') && m = 'm' then [a, 'm'] else ([] : List Char)
        | _ => ([] : List Char)
      some (ds ++ co ++ sp ++ mer)
    else none

/-- `re.search` with the time regex: the leftmost match (a match attempt
succeeds exactly at a digit). -/
def findTimeMatch : List Char → Option String
  | [] => none
  | c :: rest =>
    match timeMatchHere (c :: rest) with
    | some m => some ⟨m⟩
    | none => findTimeMatch rest

/-- Parsing one line of the inference response (lines 110-120): the
`date:` / `time:` / `title:` keys, the literal `none` treated as unset
(`"Meeting"` for the title). -/
def parseInfoLine (info : SlotInfo) (line : String) : SlotInfo :=
  let ll := pyLower line
  if containsStr ll "date:" then
    let v := pyStrip (afterFirstColon line)
    { info with date := if pyLower v = "none" then none else some v }
  else if containsStr ll "time:" then
    let v := pyStrip (afterFirstColon line)
    { info with time := if pyLower v = "none" then none else some v }
  else if containsStr ll "title:" then
    let v := pyStrip (afterFirstColon line)
    { info with title := if pyLower v = "none" then some "Meeting" else some v }
  else info

/-- The deterministic date/time fallback inside the `try` branch (lines
122-139): keyword dates, then the time regex, each only when the field is
still falsy. -/
def fallbackDateTime (info : SlotInfo) (msg : String) : SlotInfo :=
  if pyFalsyOpt info.date || pyFalsyOpt info.time then
    let ul := pyLower msg
    let info :=
      if pyFalsyOpt info.date then
        if containsStr ul "tomorrow" then { info with date := some "tomorrow" }
        else if containsStr ul "today" then { info with date := some "today" }
        else info
      else info
    if pyFalsyOpt info.time then
      match findTimeMatch ul.data with
      | some m => { info with time := some m }
      | none => info
    else info
  else info

/-- The title fallback inside the `try` branch (lines 141-158): a token
after `called`, else `dinner` / `lunch` / `meeting` keywords, else the
default `"Meeting"`.  When `called` occurs but nothing follows it, the title
is left as it was. -/
def fallbackTitle (info : SlotInfo) (msg : String) : SlotInfo :=
  let titleUnset :=
    pyFalsyOpt info.title ||
      (match info.title with
       | some s => pyLower s = "none"
       | none => false)
  if titleUnset then
    let ul := pyLower msg
    if containsStr ul "called" then
      let idx := firstIdxOfSub ul.data "called".data
      let title_part := pyStrip (strDropChars msg (idx + 6))
      if title_part = "" then info else { info with title := some (firstWord title_part) }
    else if containsStr ul "dinner" then { info with title := some "Dinner" }
    else if containsStr ul "lunch" then { info with title := some "Lunch" }
    else if containsStr ul "meeting" then { info with title := some "Meeting" }
    else { info with title := some "Meeting" }
  else info

/-- The `try` branch of `_extract_booking_info` applied to a successful
inference response (lines 90-160). -/
def extractTryBody (response msg : String) : SlotInfo :=
  let lines := (splitNewlines (pyStrip response).data).map (fun l => (⟨l⟩ : String))
  let info := lines.foldl parseInfoLine ⟨none, none, none⟩
  fallbackTitle (fallbackDateTime info msg) msg

/-- The `except` branch of `_extract_booking_info` (lines 162-191), run when
the inference call raises: keyword date, regex time, keyword title with
default `"Meeting"`. -/
def extractFallback (msg : String) : SlotInfo :=
  let ul := pyLower msg
  let date :=
    if containsStr ul "tomorrow" then some "tomorrow"
    else if containsStr ul "today" then some "today"
    else none
  let time := findTimeMatch ul.data
  let title :=
    if containsStr ul "dinner" then some "Dinner"
    else if containsStr ul "lunch" then some "Lunch"
    else if containsStr ul "called" then
      let idx := firstIdxOfSub ul.data "called".data
      let title_part := pyStrip (strDropChars msg (idx + 6))
      if title_part = "" then some "Meeting" else some (firstWord title_part)
    else some "Meeting"
  ⟨date, time, title⟩

/-- The body of `_extract_booking_info` before its `except` handler: the only
raising operation is the inference call itself (`llm` is its outcome). -/
def extract_booking_info_body (llm : Except Unit String) (msg : String) : Except Unit SlotInfo :=
  match llm with
  | .error e => .error e
  | .ok response => .ok (extractTryBody response msg)

/-- `SimpleLLMAgent._extract_booking_info` (lines 88-191): the `try` body
with the catch-all `except` falling back to keyword extraction, so the
function as observed by callers always returns `.ok`. -/
def extract_booking_info (llm : Except Unit String) (msg : String) : Except Unit SlotInfo :=
  match extract_booking_info_body llm msg with
  | .ok i => .ok i
  | .error _ => .ok (extractFallback msg)

/-! ### Intent classification (`SimpleLLMAgent._understand_intent`,
simple_llm_agent.py lines 193-252). -/

/-- The schedule-query keyword list of the rule tier (line 243). -/
def schedPhrases : List String :=
  ["what's my schedule", "show my schedule", "my schedule", "what do i have",
   "show my events", "my events"]

/-- The booking keyword list of the rule tier (line 246). -/
def bookPhrases : List String :=
  ["book", "schedule a", "set up", "create meeting", "add meeting"]

/-- The availability keyword list of the rule tier (line 249). -/
def availPhrases : List String :=
  ["available", "free", "check if"]

/-- `SimpleLLMAgent._understand_intent`: when the inference call returns, its
(stripped, lower-cased) text is mapped by substring tests in the order
`book_meeting`, `check_schedule`, `check_availability`; the keyword rule tier
runs only in the `except` branch, schedule-query phrases first. -/
def understand_intent (llm : Except Unit String) (msg : String) : String :=
  match llm with
  | .ok response =>
    let intent := pyLower (pyStrip response)
    if containsStr intent "book_meeting" then "book_meeting"
    else if containsStr intent "check_schedule" then "check_schedule"
    else if containsStr intent "check_availability" then "check_availability"
    else "general_chat"
  | .error _ =>
    let ul := pyLower msg
    if schedPhrases.any (fun w => containsStr ul w) then "check_schedule"
    else if bookPhrases.any (fun w => containsStr ul w) then "book_meeting"
    else if availPhrases.any (fun w => containsStr ul w) then "check_availability"
    else "general_chat"

/-! ### Booking handler (`SimpleLLMAgent._handle_booking`, simple_llm_agent.py
lines 282-327). -/

/-- A Calendar Service operation performed during a turn. -/
inductive CalCall where
  | isFree (s e : Instant) : CalCall
  | create (title : String) (s e : Instant) : CalCall
  deriving DecidableEq, Repr

/-- `parsed_date + timedelta(hours=1)` and friends: advance an instant by
minutes, rolling the day over. -/
def addMinutes (i : Instant) (m : Nat) : Instant :=
  ⟨i.ord + (i.min + m) / 1440, (i.min + m) % 1440⟩

/-- The date-time parsing step of `_handle_booking` (lines 296-307): try
`parse_combined_datetime` (dateutil-backed, modelled as the oracle outcome
`comb`), and on its raising fall back to `parse_date_time`. -/
def bookingParse (comb : Except Unit Instant) (d t : String) (R : Ref) : Except Unit Instant :=
  match comb with
  | .ok v => .ok v
  | .error _ => parse_date_time d (some t) R

/-- The body of `_handle_booking` after slot extraction succeeded, returning
the reply and the Calendar Service calls made this turn.  `avail` is
`check_availability` (total: it catches `HttpError` and returns busy),
`createRes` the `create_event` outcome (`.error` is a raise, reaching the
handler's outer `except`; `.ok b` is a returned event of truthiness `b`). -/
def handle_booking_core (info : SlotInfo) (comb : Except Unit Instant)
    (avail : Instant → Instant → Bool) (createRes : Except Unit Bool) (R : Ref) :
    String × List CalCall :=
  let title :=
    match info.title with
    | none => "Meeting"
    | some s => if s = "" then "Meeting" else s
  if pyFalsyOpt info.date || pyFalsyOpt info.time then
    ("I need more information to book your meeting. Please provide a date and time.", [])
  else
    let d := info.date.getD ""
    let t := info.time.getD ""
    match bookingParse comb d t R with
    | .error _ =>
      ("I couldn't understand the date or time. Please try again with a clearer format like 'tomorrow at 3pm' or 'today 2:30pm'.", [])
    | .ok parsed =>
      let pEnd := addMinutes parsed 60
      if avail parsed pEnd then
        match createRes with
        | .error _ =>
          ("I encountered an error while booking your meeting. Please try again.",
           [CalCall.isFree parsed pEnd, CalCall.create title parsed pEnd])
        | .ok ev =>
          if ev then
            ("✅ Successfully booked '" ++ title ++ "' for " ++ d ++ " at " ++ t ++ ". The meeting has been added to your Google Calendar.",
             [CalCall.isFree parsed pEnd, CalCall.create title parsed pEnd])
          else
            ("❌ Failed to create the meeting. Please try again.",
             [CalCall.isFree parsed pEnd, CalCall.create title parsed pEnd])
      else
        (t ++ " on " ++ d ++ " is not available. Please choose another time.",
         [CalCall.isFree parsed pEnd])

/-- `SimpleLLMAgent._handle_booking` (lines 282-327): extract slots, then run
the booking body; a raise escaping to the outer `except` (line 325) becomes
the generic apology. -/
def handle_booking (llm : Except Unit String) (msg : String) (comb : Except Unit Instant)
    (avail : Instant → Instant → Bool) (createRes : Except Unit Bool) (R : Ref) :
    String × List CalCall :=
  match extract_booking_info llm msg with
  | .error _ => ("I encountered an error while booking your meeting. Please try again.", [])
  | .ok info => handle_booking_core info comb avail createRes R

/-! ### Availability scan (`CalendarManager.check_availability` and
`get_available_slots`, calendar_utils.py lines 44-93).  Times are minutes
past midnight of the scanned day; an event is a start/end pair. -/

/-- Whether an event overlaps the query window as the Google events list with
`timeMin = s`, `timeMax = e` reports it: end strictly after `s`, start
strictly before `e` (both bounds exclusive). -/
def googleOverlaps (s e : Nat) (ev : Nat × Nat) : Bool :=
  decide (ev.1 < e) && decide (s < ev.2)

/-- `CalendarManager.check_availability`: the slot is free when the events
query over it returns no events. -/
def check_availability (events : List (Nat × Nat)) (s e : Nat) : Bool :=
  (events.filter (googleOverlaps s e)).length == 0

/-- The `while` loop of `get_available_slots` (lines 84-91): from
`business_start` (09:00 = 540) in 30-minute strides while the candidate ends
by `business_end` (18:00 = 1080).  The loop runs at most 19 iterations
(stride 30 over a 540-minute window), so fuel 19 is exact. -/
def scanGo (events : List (Nat × Nat)) (dur : Nat) : Nat → Nat → List (Nat × Nat)
  | 0, _ => []
  | fuel + 1, cur =>
    if cur + dur ≤ 1080 then
      if check_availability events cur (cur + dur) then
        (cur, cur + dur) :: scanGo events dur fuel (cur + 30)
      else scanGo events dur fuel (cur + 30)
    else []

/-- `CalendarManager.get_available_slots` (lines 72-93). -/
def get_available_slots (events : List (Nat × Nat)) (dur : Nat) : List (Nat × Nat) :=
  scanGo events dur 19 540

/-! ### Conversation loop (`SimpleLLMAgent.chat` and `reset_conversation`,
simple_llm_agent.py lines 254-280 and 567-569). -/

/-- One entry of `conversation_history`: `chat` appends
`{"user": user_message, "timestamp": datetime.now()}`. -/
structure Turn where
  user : String
  timestamp : Nat
  deriving DecidableEq, Repr

/-- `SimpleLLMAgent.chat` (lines 254-280): append the user turn to the
history, classify, dispatch.  The booking branch is the fully modelled
`handle_booking`; the schedule / availability / slot-list / general-chat
branches perform external calendar and inference I/O and never touch the
history, so their replies are supplied by the `otherReply` oracle keyed by
the branch taken.  Returns the new history and the reply. -/
def chat (hist : List Turn) (msg : String) (t : Nat)
    (intentLLM extractLLM : Except Unit String) (comb : Except Unit Instant)
    (avail : Instant → Instant → Bool) (createRes : Except Unit Bool) (R : Ref)
    (otherReply : String → String) : List Turn × String :=
  let hist2 := hist ++ [⟨msg, t⟩]
  let intent := understand_intent intentLLM msg
  let reply :=
    if intent = "book_meeting" then (handle_booking extractLLM msg comb avail createRes R).1
    else if intent = "check_schedule" then otherReply "check_schedule"
    else if intent = "check_availability" then otherReply "check_availability"
    else if ["find available", "available slots", "free slots", "open slots"].any
        (fun w => containsStr (pyLower msg) w) then otherReply "available_slots"
    else otherReply "general_chat"
  (hist2, reply)

/-- `SimpleLLMAgent.reset_conversation` (lines 567-569): the history becomes
the empty list. -/
def reset_conversation : List Turn :=
  []

/-! ### The weekday enumeration used to quantify claim C3 over the seven
`day_map` names. -/

/-- A weekday name of `day_map`. -/
inductive Wday where
  | monday | tuesday | wednesday | thursday | friday | saturday | sunday
  deriving DecidableEq, Repr

/-- The weekday's name as it appears in a `next <weekday>` phrase. -/
def wdayName : Wday → String
  | .monday => "monday"
  | .tuesday => "tuesday"
  | .wednesday => "wednesday"
  | .thursday => "thursday"
  | .friday => "friday"
  | .saturday => "saturday"
  | .sunday => "sunday"

/-- The weekday's Python `weekday()` number (Monday = 0). -/
def wdayIdx : Wday → Nat
  | .monday => 0
  | .tuesday => 1
  | .wednesday => 2
  | .thursday => 3
  | .friday => 4
  | .saturday => 5
  | .sunday => 6

/-! ### Helper lemmas shared by the claim theorems. -/

/-- The outer `except Exception` of `parse_date_time` catches every internal
error, so the function never fails as seen by callers. -/
lemma parse_date_time_ok (d : String) (t : Option String) (R : Ref) :
    ∃ v, parse_date_time d t R = Except.ok v := by
  unfold parse_date_time
  cases dateStepBody d R <;> exact ⟨_, rfl⟩

/-- Arithmetic of the `next <weekday>` rule: the result is strictly in the
future, at most seven days ahead, and lands on the requested weekday. -/
lemma nextWeekday_bounds (t o : Nat) (ht : t < 7) :
    o < nextWeekdayOrd t o ∧ nextWeekdayOrd t o ≤ o + 7 ∧
      (nextWeekdayOrd t o + 6) % 7 = t := by
  simp only [nextWeekdayOrd]
  split <;> omega

/-- Membership characterisation of the availability-scan loop, for any fuel
large enough for the loop to have exited. -/
lemma scanGo_mem (events : List (Nat × Nat)) (dur s e : Nat) :
    ∀ (fuel cur : Nat), 1080 < cur + 30 * fuel + dur →
      ((s, e) ∈ scanGo events dur fuel cur ↔
        cur ≤ s ∧ (s - cur) % 30 = 0 ∧ e = s + dur ∧ s + dur ≤ 1080 ∧
          check_availability events s e = true) := by
  intro fuel
  induction fuel with
  | zero =>
    intro cur hcur
    simp only [scanGo, List.not_mem_nil, false_iff]
    rintro ⟨h1, -, -, h4, -⟩
    omega
  | succ fuel ih =>
    intro cur hcur
    rw [scanGo]
    by_cases hc : cur + dur ≤ 1080
    · rw [if_pos hc]
      have hrec := ih (cur + 30) (by omega)
      by_cases hf : check_availability events cur (cur + dur) = true
      · rw [if_pos hf]
        simp only [List.mem_cons, hrec, Prod.mk.injEq]
        constructor
        · rintro (⟨rfl, rfl⟩ | ⟨h1, h2, h3, h4, h5⟩)
          · exact ⟨Nat.le_refl _, by omega, rfl, hc, hf⟩
          · exact ⟨by omega, by omega, h3, h4, h5⟩
        · rintro ⟨h1, h2, rfl, h4, h5⟩
          by_cases hs : s = cur
          · subst hs; exact Or.inl ⟨rfl, rfl⟩
          · exact Or.inr ⟨by omega, by omega, rfl, h4, h5⟩
      · rw [if_neg hf]
        rw [hrec]
        constructor
        · rintro ⟨h1, h2, h3, h4, h5⟩
          exact ⟨by omega, by omega, h3, h4, h5⟩
        · rintro ⟨h1, h2, rfl, h4, h5⟩
          by_cases hs : s = cur
          · exact absurd (hs ▸ h5) hf
          · exact ⟨by omega, by omega, rfl, h4, h5⟩
    · rw [if_neg hc]
      simp only [List.not_mem_nil, false_iff]
      rintro ⟨h1, -, -, h4, -⟩
      omega

/-- C1 (amended): `parse_date_time` never fails as observed by callers — for
every date phrase and time phrase it returns an instant, substituting
reference-derived defaults itself (the outer handler and the inner defaults),
rather than raising `UnparseableDate` / `UnparseableTime` for the caller to
handle. -/
theorem resolve_never_fails (d : String) (t : Option String) (R : Ref) :
    ∃ v, parse_date_time d t R = Except.ok v :=
  parse_date_time_ok d t R

/-- C1 (counterexample): the date phrase `"gibberish"` matches no
date-resolution rule and `"noon"` contains no digits, yet `resolve` does not
fail — it returns the reference date at the reference time-of-day, deciding
the fallback itself. -/
theorem resolve_unparseable_defaults_counterexample :
    parse_date_time "gibberish" (some "noon") ⟨739000, 615, 2024⟩ =
      Except.ok ⟨739000, 615⟩
  ∧ parse_date_time "gibberish" (some "noon") ⟨739000, 615, 2024⟩ ≠
      Except.error () := by
  refine ⟨rfl, fun h => ?_⟩
  rw [show parse_date_time "gibberish" (some "noon") ⟨739000, 615, 2024⟩ =
        Except.ok ⟨739000, 615⟩ from rfl] at h
  exact Except.noConfusion h

/-- C3: for every weekday W and reference instant R, resolving
`"next " + W` yields the date `nextWeekdayOrd` computes, which is strictly
after R's date, at most 7 days later, and falls on weekday W — in particular
never R's own date even when R falls on W. -/
theorem next_weekday_strictly_future (w : Wday) (R : Ref) :
    parse_date_time ("next " ++ wdayName w) none R =
      Except.ok ⟨nextWeekdayOrd (wdayIdx w) R.ord, R.timeMin⟩
  ∧ R.ord < nextWeekdayOrd (wdayIdx w) R.ord
  ∧ nextWeekdayOrd (wdayIdx w) R.ord ≤ R.ord + 7
  ∧ (nextWeekdayOrd (wdayIdx w) R.ord + 6) % 7 = wdayIdx w := by
  have hb := nextWeekday_bounds (wdayIdx w) R.ord (by cases w <;> decide)
  exact ⟨by cases w <;> rfl, hb.1, hb.2.1, hb.2.2⟩

/-- C7: for every date phrase and reference instant, resolving with the time
phrase `"3pm"` and with `"15:00"` yields the identical instant (both resolve
to 15:00 with minutes defaulting to 0). -/
theorem resolve_meridiem_24h_agree (d : String) (R : Ref) :
    parse_date_time d (some "3pm") R = parse_date_time d (some "15:00") R := by
  unfold parse_date_time
  cases dateStepBody d R <;> rfl

/-- C2 (counterexample): on the utterance containing both a schedule-query
phrase and a booking keyword, an inference response of `book_meeting` makes
`classify` return `book_meeting`, not `check_schedule` — the inference tier,
not the rule tier, decides whenever the inference call returns. -/
theorem intent_inference_wins_counterexample :
    understand_intent (Except.ok "book_meeting") "show my schedule of meetings to book" =
      "book_meeting"
  ∧ understand_intent (Except.ok "book_meeting") "show my schedule of meetings to book" ≠
      "check_schedule"
  ∧ containsStr (pyLower "show my schedule of meetings to book") "show my schedule" = true
  ∧ containsStr (pyLower "show my schedule of meetings to book") "book" = true := by
  exact ⟨rfl, by decide, rfl, rfl⟩

/-- C2 (amended): the keyword rule tier runs only when the inference call
raises; there, schedule-query phrases are checked before booking keywords, so
an utterance containing both classifies as `check_schedule`.  When the
inference call returns text containing a known intent token, that token wins
instead. -/
theorem intent_rule_tier_schedule_first (msg : String)
    (hs : containsStr (pyLower msg) "show my schedule" = true)
    (hb : containsStr (pyLower msg) "book" = true) :
    understand_intent (Except.error ()) msg = "check_schedule" := by
  have hany : schedPhrases.any (fun w => containsStr (pyLower msg) w) = true := by
    apply List.any_eq_true.mpr
    exact ⟨"show my schedule", by simp [schedPhrases], hs⟩
  simp [understand_intent, hany]

/-- C2 (witness): the rule tier classifies the both-keyword utterance as
`check_schedule` when the inference call raises. -/
theorem intent_rule_tier_witness :
    understand_intent (Except.error ()) "show my schedule of meetings to book" =
      "check_schedule" :=
  intent_rule_tier_schedule_first "show my schedule of meetings to book" rfl rfl

/-- C4: the business-hours availability scan with 60-minute slots considers
exactly the candidates starting at 09:00 (540) in 30-minute strides whose end
is at most 18:00 (1080), returning exactly the free ones; over a day whose
only event occupies 10:00-11:00 it keeps 09:00-10:00 and 11:00-12:00 and
drops 09:30-10:30, 10:00-11:00 and 10:30-11:30. -/
theorem business_hours_scan_slots :
    (∀ (events : List (Nat × Nat)) (s e : Nat),
        (s, e) ∈ get_available_slots events 60 ↔
          540 ≤ s ∧ (s - 540) % 30 = 0 ∧ e = s + 60 ∧ s + 60 ≤ 1080 ∧
            check_availability events s e = true)
  ∧ ((540, 600) ∈ get_available_slots [(600, 660)] 60
      ∧ (660, 720) ∈ get_available_slots [(600, 660)] 60
      ∧ (570, 630) ∉ get_available_slots [(600, 660)] 60
      ∧ (600, 660) ∉ get_available_slots [(600, 660)] 60
      ∧ (630, 690) ∉ get_available_slots [(600, 660)] 60) := by
  constructor
  · intro events s e
    have h := scanGo_mem events 60 s e 19 540 (by omega)
    simpa [get_available_slots] using h
  · decide

/-- C5: when slot extraction leaves the date phrase or the time phrase unset,
the booking turn ends with the clarification request and makes no Calendar
Service call at all. -/
theorem booking_missing_slots_no_calendar_call (llm : Except Unit String)
    (msg : String) (comb : Except Unit Instant) (avail : Instant → Instant → Bool)
    (cr : Except Unit Bool) (R : Ref) (info : SlotInfo)
    (hext : extract_booking_info llm msg = Except.ok info)
    (hmiss : info.date = none ∨ info.time = none) :
    handle_booking llm msg comb avail cr R =
      ("I need more information to book your meeting. Please provide a date and time.", []) := by
  unfold handle_booking
  rw [hext]
  have hcond : (pyFalsyOpt info.date || pyFalsyOpt info.time) = true := by
    rcases hmiss with h | h <;> rw [h] <;> simp [pyFalsyOpt]
  simp [handle_booking_core, hcond]

/-- C5 (witness): `"book a meeting"` with the inference call raising extracts
no date and no time, and the turn is the clarification with zero calendar
calls. -/
theorem booking_missing_slots_witness :
    handle_booking (Except.error ()) "book a meeting" (Except.error ())
        (fun _ _ => true) (Except.ok true) ⟨738886, 615, 2024⟩ =
      ("I need more information to book your meeting. Please provide a date and time.", []) :=
  booking_missing_slots_no_calendar_call (Except.error ()) "book a meeting"
    (Except.error ()) (fun _ _ => true) (Except.ok true) ⟨738886, 615, 2024⟩
    ⟨none, none, some "Meeting"⟩ rfl (Or.inl rfl)

/-- C8: slot extraction never fails — for every inference outcome and
utterance it returns a slot set; and the worst case with every field unset is
reached (utterance `"called"` with an uninformative inference response), in
which case the booking caller treats it as insufficient information and makes
no calendar call. -/
theorem extract_never_fails_worst_case :
    (∀ (llm : Except Unit String) (msg : String),
        ∃ i, extract_booking_info llm msg = Except.ok i)
  ∧ extract_booking_info (Except.ok "") "called" = Except.ok ⟨none, none, none⟩
  ∧ handle_booking (Except.ok "") "called" (Except.error ())
        (fun _ _ => true) (Except.ok true) ⟨738886, 615, 2024⟩ =
      ("I need more information to book your meeting. Please provide a date and time.", []) := by
  refine ⟨?_, rfl, rfl⟩
  intro llm msg
  unfold extract_booking_info
  cases extract_booking_info_body llm msg <;> exact ⟨_, rfl⟩

/-- C9 (counterexample): a `chat` turn on an empty history leaves exactly one
turn (the user turn) in the history, not two — no assistant turn is appended
at the end of the invocation. -/
theorem chat_no_assistant_turn_counterexample :
    (chat [] "hello" 5 (Except.error ()) (Except.error ()) (Except.error ())
        (fun _ _ => true) (Except.ok true) ⟨738886, 615, 2024⟩ (fun _ => "reply")).1.length = 1
  ∧ (chat [] "hello" 5 (Except.error ()) (Except.error ()) (Except.error ())
        (fun _ _ => true) (Except.ok true) ⟨738886, 615, 2024⟩ (fun _ => "reply")).1.length ≠ 2 := by
  exact ⟨rfl, by decide⟩

/-- C9 (amended): every `chat` invocation appends exactly one turn — the user
turn, at its start — to the conversation history; the history is append-only
(the prior history is a prefix of the new one) and is emptied only by the
explicit reset operation. -/
theorem chat_history_single_append (hist : List Turn) (msg : String) (t : Nat)
    (iE eE : Except Unit String) (comb : Except Unit Instant)
    (avail : Instant → Instant → Bool) (cr : Except Unit Bool) (R : Ref)
    (orep : String → String) :
    (chat hist msg t iE eE comb avail cr R orep).1 = hist ++ [⟨msg, t⟩]
  ∧ hist <+: (chat hist msg t iE eE comb avail cr R orep).1
  ∧ (chat hist msg t iE eE comb avail cr R orep).1.length = hist.length + 1
  ∧ reset_conversation = ([] : List Turn) := by
  refine ⟨rfl, ⟨[⟨msg, t⟩], rfl⟩, by simp [chat], rfl⟩

/-- C6: when the availability check reports the resolved one-hour interval
busy, the booking turn replies with the conflict message — which names the
requested time and date phrases — and the only Calendar Service call of the
turn is that availability check: `create` is never called. -/
theorem booking_conflict_no_create (llm : Except Unit String) (msg : String)
    (comb : Except Unit Instant) (avail : Instant → Instant → Bool)
    (cr : Except Unit Bool) (R : Ref) (info : SlotInfo) (d t : String) (p : Instant)
    (hext : extract_booking_info llm msg = Except.ok info)
    (hd : info.date = some d) (ht : info.time = some t)
    (hd0 : d ≠ "") (ht0 : t ≠ "")
    (hp : bookingParse comb d t R = Except.ok p)
    (hbusy : avail p (addMinutes p 60) = false) :
    handle_booking llm msg comb avail cr R =
      (t ++ " on " ++ d ++ " is not available. Please choose another time.",
        [CalCall.isFree p (addMinutes p 60)])
  ∧ (∀ (ti : String) (a b : Instant),
      CalCall.create ti a b ∉ (handle_booking llm msg comb avail cr R).2)
  ∧ t.data <+: (handle_booking llm msg comb avail cr R).1.data
  ∧ d.data <:+: (handle_booking llm msg comb avail cr R).1.data := by
  have hcond : (pyFalsyOpt info.date || pyFalsyOpt info.time) = false := by
    rw [hd, ht]
    simp [pyFalsyOpt, hd0, ht0]
  have heq : handle_booking llm msg comb avail cr R =
      (t ++ " on " ++ d ++ " is not available. Please choose another time.",
        [CalCall.isFree p (addMinutes p 60)]) := by
    unfold handle_booking
    rw [hext]
    simp only [handle_booking_core, hd, ht, Option.getD_some]
    rw [if_neg (by simp [pyFalsyOpt, hd0, ht0])]
    rw [hp]
    dsimp only
    rw [if_neg (by rw [hbusy]; exact Bool.false_ne_true)]
  refine ⟨heq, ?_, ?_, ?_⟩
  · intro ti a b
    rw [heq]
    simp
  · rw [heq]
    simp only [String.data_append, List.append_assoc]
    exact List.prefix_append _ _
  · rw [heq]
    simp only [String.data_append, List.append_assoc]
    exact ⟨t.data ++ " on ".data,
      " is not available. Please choose another time.".data, by simp [List.append_assoc]⟩

/-- C6 (witness): with the inference call raising, `"book meeting tomorrow at
3pm"` extracts date `tomorrow` and time `3pm`; with the calendar reporting
the resolved interval busy, the turn is the conflict message naming both, and
no `create` call is made. -/
theorem booking_conflict_witness :
    handle_booking (Except.error ()) "book meeting tomorrow at 3pm" (Except.error ())
        (fun _ _ => false) (Except.ok true) ⟨738886, 615, 2024⟩ =
      ("3pm on tomorrow is not available. Please choose another time.",
        [CalCall.isFree ⟨738887, 900⟩ ⟨738887, 960⟩])
  ∧ (∀ (ti : String) (a b : Instant),
      CalCall.create ti a b ∉
        (handle_booking (Except.error ()) "book meeting tomorrow at 3pm" (Except.error ())
          (fun _ _ => false) (Except.ok true) ⟨738886, 615, 2024⟩).2)
  ∧ "3pm".data <+:
      (handle_booking (Except.error ()) "book meeting tomorrow at 3pm" (Except.error ())
        (fun _ _ => false) (Except.ok true) ⟨738886, 615, 2024⟩).1.data
  ∧ "tomorrow".data <:+:
      (handle_booking (Except.error ()) "book meeting tomorrow at 3pm" (Except.error ())
        (fun _ _ => false) (Except.ok true) ⟨738886, 615, 2024⟩).1.data :=
  booking_conflict_no_create (Except.error ()) "book meeting tomorrow at 3pm"
    (Except.error ()) (fun _ _ => false) (Except.ok true) ⟨738886, 615, 2024⟩
    ⟨some "tomorrow", some "3pm", some "Meeting"⟩ "tomorrow" "3pm" ⟨738887, 900⟩
    rfl rfl rfl (by decide) (by decide) rfl rfl

/-- C10: the combined-parse fallback inside `_handle_booking` can never take
its error return: `parse_date_time` catches every internal error and returns
the current instant instead of raising, so the fallback parse always
succeeds, and no run of the handler produces the `"I couldn't understand the
date or time. ..."` reply with no calendar call (the observable of that
branch). -/
theorem booking_fallback_error_reply_unreachable :
    (∀ (comb : Except Unit Instant) (d t : String) (R : Ref),
        ∃ v, bookingParse comb d t R = Except.ok v)
  ∧ (∀ (llm : Except Unit String) (msg : String) (comb : Except Unit Instant)
        (avail : Instant → Instant → Bool) (cr : Except Unit Bool) (R : Ref),
      handle_booking llm msg comb avail cr R ≠
        ("I couldn't understand the date or time. Please try again with a clearer format like 'tomorrow at 3pm' or 'today 2:30pm'.", [])) := by
  have hbp : ∀ (comb : Except Unit Instant) (d t : String) (R : Ref),
      ∃ v, bookingParse comb d t R = Except.ok v := by
    intro comb d t R
    cases comb with
    | ok v => exact ⟨v, rfl⟩
    | error e => exact parse_date_time_ok d (some t) R
  refine ⟨hbp, ?_⟩
  intro llm msg comb avail cr R
  unfold handle_booking
  cases hext : extract_booking_info llm msg with
  | error e =>
    intro h
    rw [Prod.mk.injEq] at h
    exact absurd h.1 (by decide)
  | ok info =>
    simp only [handle_booking_core]
    by_cases hmiss : (pyFalsyOpt info.date || pyFalsyOpt info.time) = true
    · rw [if_pos hmiss]
      intro h
      rw [Prod.mk.injEq] at h
      exact absurd h.1 (by decide)
    · rw [if_neg hmiss]
      obtain ⟨v, hv⟩ := hbp comb (info.date.getD "") (info.time.getD "") R
      rw [hv]
      dsimp only
      by_cases ha : avail v (addMinutes v 60) = true
      · rw [if_pos ha]
        cases cr with
        | error e =>
          intro h
          rw [Prod.mk.injEq] at h
          exact List.cons_ne_nil _ _ h.2
        | ok ev =>
          cases ev <;>
            · intro h
              rw [Prod.mk.injEq] at h
              exact List.cons_ne_nil _ _ h.2
      · rw [if_neg ha]
        intro h
        rw [Prod.mk.injEq] at h
        exact List.cons_ne_nil _ _ h.2
